import Mathlib

/-!
Verification of the KeyBinding validation core of the XKMS responder
(santuario-java, C++ XSEC library).  The repository fragment under
src/ contains only the interface header XKMSKeyBinding.hpp; the
validation core (KeyInfoRecord, ValidityReasonSet, StatusEvaluator)
is modelled from the specification, as noted on each definition.
-/

namespace XKMS

/-- Modelled from the spec: enumerated reason tags of a ValidityReason
(IssuerTrust, Revocation, ValidityInterval, Signature) together with the
synthetic EvaluationIncomplete marker used when evaluation short-circuits.
The implementation of ValidityReason is not under src/. -/
inductive ReasonTag where
  | IssuerTrust
  | Revocation
  | ValidityInterval
  | Signature
  | EvaluationIncomplete
  deriving DecidableEq, Repr

/-- Modelled from the spec: a ValidityReason is a tag with a boolean
polarity (true = confirms, false = denies). -/
structure ValidityReason where
  tag : ReasonTag
  polarity : Bool
  deriving DecidableEq, Repr

/-- Modelled from the spec: the synthetic EvaluationIncomplete marker
added when an authority capability is unavailable or times out. -/
def incompleteMarker : ValidityReason := ⟨ReasonTag.EvaluationIncomplete, false⟩

/-- Modelled from the spec: a ValidityReasonSet accumulates reasons in
insertion order; the implementation is not under src/. -/
structure ValidityReasonSet where
  reasons : List ValidityReason
  deriving DecidableEq, Repr

/-- Modelled from the spec: the empty reason set. -/
def ValidityReasonSet.empty : ValidityReasonSet := ⟨[]⟩

/-- Modelled from the spec: add inserts a reason tag+polarity if not
already present (idempotent); reasons are kept in insertion order. -/
def ValidityReasonSet.add (s : ValidityReasonSet) (r : ValidityReason) :
    ValidityReasonSet :=
  if r ∈ s.reasons then s else ⟨s.reasons ++ [r]⟩

/-- Modelled from the spec: the tri-state verdict of an evaluation. -/
inductive Status where
  | Valid
  | Invalid
  | Indeterminate
  deriving DecidableEq, Repr

/-- Modelled from the spec: the Status derivation rule of section 3.
Invalid requires at least one denying reason; Valid requires at least one
confirming reason and zero denying reasons; Indeterminate otherwise
(including empty reason sets). -/
def deriveStatus (s : ValidityReasonSet) : Status :=
  if s.reasons.any (fun r => !r.polarity) then Status.Invalid
  else if s.reasons.any (fun r => r.polarity) then Status.Valid
  else Status.Indeterminate

/-- Modelled from the spec: key usage flags of a KeyInfoRecord. -/
inductive KeyUsage where
  | Encryption
  | Signing
  | Exchange
  deriving DecidableEq, Repr

/-- Modelled from the spec: immutable description of a public key and its
associated identity claims, with the validity interval consulted by step 3
of the evaluator.  The implementation is not under src/. -/
structure KeyInfoRecord where
  keyBytes : List Nat
  algTag : String
  claims : List String
  usage : List KeyUsage
  notBefore : Nat
  notAfter : Nat
  deriving DecidableEq, Repr

/-- Modelled from the spec: construction-time error of KeyInfoRecord. -/
inductive MalformedKeyError where
  | malformed
  deriving DecidableEq, Repr

/-- Modelled from the spec: KeyInfoRecord is constructed from raw key
bytes plus algorithm tag (with claims, usage flags and validity interval);
it fails with MalformedKeyError if key bytes are empty or the algorithm
tag is unrecognized (the set of recognized tags is passed as a predicate,
the spec does not fix it). -/
def mkKeyInfoRecord (recognized : String → Bool) (bytes : List Nat)
    (alg : String) (claims : List String) (usage : List KeyUsage)
    (notBefore notAfter : Nat) :
    Except MalformedKeyError KeyInfoRecord :=
  if bytes = [] ∨ recognized alg = false then
    Except.error MalformedKeyError.malformed
  else
    Except.ok ⟨bytes, alg, claims, usage, notBefore, notAfter⟩

/-- Modelled from the spec: faults a TrustAuthority capability call can
raise; both are recovered locally inside the StatusEvaluator. -/
inductive CapabilityFault where
  | timeout
  | fault
  deriving DecidableEq, Repr

/-- Modelled from the spec: the TrustAuthority capability, an abstract
source of trust facts consumed by the evaluator.  Each call either
returns a value or raises a CapabilityFault (unavailable / timeout). -/
structure TrustAuthority where
  isIssuerTrusted : List String → Except CapabilityFault Bool
  isRevoked : List Nat → Except CapabilityFault Bool
  currentTime : Except CapabilityFault Nat

/-- Modelled from the spec: the StatusEvaluator operation of section 4.3.
Step 1 queries issuer trust and adds an IssuerTrust reason with polarity
equal to the result; step 2 queries revocation and adds a Revocation
reason with polarity the negation of the result; step 3 checks the
validity interval against the reference time obtained from currentTime
and adds a ValidityInterval reason; any step that cannot be completed
short-circuits to Indeterminate with the reasons collected so far plus
the EvaluationIncomplete marker; otherwise the Status derivation rule is
applied to the accumulated reason set. -/
def evaluate (k : KeyInfoRecord) (ta : TrustAuthority) :
    Status × ValidityReasonSet :=
  match ta.isIssuerTrusted k.claims with
  | Except.error _ =>
      (Status.Indeterminate, ValidityReasonSet.empty.add incompleteMarker)
  | Except.ok trusted =>
      let s1 := ValidityReasonSet.empty.add ⟨ReasonTag.IssuerTrust, trusted⟩
      match ta.isRevoked k.keyBytes with
      | Except.error _ => (Status.Indeterminate, s1.add incompleteMarker)
      | Except.ok revoked =>
          let s2 := s1.add ⟨ReasonTag.Revocation, !revoked⟩
          match ta.currentTime with
          | Except.error _ => (Status.Indeterminate, s2.add incompleteMarker)
          | Except.ok t =>
              let inInterval := decide (k.notBefore ≤ t ∧ t ≤ k.notAfter)
              let s3 := s2.add ⟨ReasonTag.ValidityInterval, inInterval⟩
              (deriveStatus s3, s3)

/-- Reachable reason sets: those produced from the empty set by a
sequence of add operations (the only operations the spec allows: no
removal, reasons only accumulate during one evaluation pass). -/
inductive Reachable : ValidityReasonSet → Prop where
  | empty : Reachable ValidityReasonSet.empty
  | add (s : ValidityReasonSet) (r : ValidityReason) :
      Reachable s → Reachable (s.add r)

end XKMS

namespace XKMS

/-- C1: for every reason set R, the derived status is Valid if and only if
R contains at least one confirming reason and no denying reason. -/
theorem status_valid_iff (R : ValidityReasonSet) :
    deriveStatus R = Status.Valid ↔
      (∃ r ∈ R.reasons, r.polarity = true) ∧
        ¬ ∃ r ∈ R.reasons, r.polarity = false := by
  unfold deriveStatus
  by_cases hd : R.reasons.any (fun r => !r.polarity) = true
  · simp only [hd, if_true]
    simp only [List.any_eq_true, Bool.not_eq_true'] at hd
    constructor
    · intro h; exact absurd h (by simp)
    · intro h; exact absurd hd h.2
  · simp only [hd, if_false]
    simp only [List.any_eq_true, Bool.not_eq_true'] at hd
    by_cases hc : R.reasons.any (fun r => r.polarity) = true
    · simp only [hc, if_true]
      simp only [List.any_eq_true] at hc
      simp [hc, hd]
    · simp only [hc, if_false]
      simp only [List.any_eq_true] at hc
      constructor
      · intro h; exact absurd h (by simp)
      · intro h; exact absurd h.1 hc

/-- C2: for every reason set R, the derived status is Invalid if and only
if R contains at least one denying reason. -/
theorem status_invalid_iff (R : ValidityReasonSet) :
    deriveStatus R = Status.Invalid ↔ ∃ r ∈ R.reasons, r.polarity = false := by
  unfold deriveStatus
  by_cases hd : R.reasons.any (fun r => !r.polarity) = true
  · simp only [hd, if_true]
    simp only [List.any_eq_true, Bool.not_eq_true'] at hd
    simp [hd]
  · simp only [hd, if_false]
    simp only [List.any_eq_true, Bool.not_eq_true'] at hd
    by_cases hc : R.reasons.any (fun r => r.polarity) = true
    · simp only [hc, if_true]
      constructor
      · intro h; exact absurd h (by simp)
      · intro h; exact absurd h hd
    · simp only [hc, if_false]
      constructor
      · intro h; exact absurd h (by simp)
      · intro h; exact absurd h hd

/-- C3: adding the same reason twice leaves a ValidityReasonSet unchanged,
and every reason set reachable from the empty set by add operations
contains no duplicate (tag, polarity) pair. -/
theorem add_idempotent_and_nodup :
    (∀ (s : ValidityReasonSet) (r : ValidityReason),
        (s.add r).add r = s.add r) ∧
      (∀ s : ValidityReasonSet, Reachable s → s.reasons.Nodup) := by
  constructor
  · intro s r
    unfold ValidityReasonSet.add
    by_cases h : r ∈ s.reasons
    · simp [h]
    · simp [h]
  · intro s hs
    induction hs with
    | empty => simp [ValidityReasonSet.empty]
    | add s r _ ih =>
        unfold ValidityReasonSet.add
        by_cases h : r ∈ s.reasons
        · simpa [h] using ih
        · simp [h, ih, List.nodup_append]

/-- C3 witness: the idempotence equation and the no-duplicates invariant
instantiated at a concrete reachable reason set. -/
theorem add_idempotent_and_nodup_witness :
    ((ValidityReasonSet.empty.add incompleteMarker).add incompleteMarker =
        ValidityReasonSet.empty.add incompleteMarker) ∧
      (ValidityReasonSet.empty.add incompleteMarker).reasons.Nodup :=
  ⟨add_idempotent_and_nodup.1 ValidityReasonSet.empty incompleteMarker,
    add_idempotent_and_nodup.2 _
      (Reachable.add ValidityReasonSet.empty incompleteMarker Reachable.empty)⟩

end XKMS

namespace XKMS

/-- Helper: a reason is always a member of the set obtained by adding it. -/
theorem ValidityReasonSet.mem_add_self (s : ValidityReasonSet)
    (r : ValidityReason) : r ∈ (s.add r).reasons := by
  unfold ValidityReasonSet.add
  by_cases h : r ∈ s.reasons
  · simp [h]
  · simp [h]

/-- C4: evaluate is deterministic.  Its result is a function of the
KeyInfoRecord and the TrustAuthority state alone: two authorities whose
capabilities answer identically yield the same Status and the same
ordered reason sequence.  The reference time is the currentTime
capability of the authority. -/
theorem evaluate_deterministic (k : KeyInfoRecord) (ta1 ta2 : TrustAuthority)
    (h1 : ta1.isIssuerTrusted = ta2.isIssuerTrusted)
    (h2 : ta1.isRevoked = ta2.isRevoked)
    (h3 : ta1.currentTime = ta2.currentTime) :
    evaluate k ta1 = evaluate k ta2 := by
  unfold evaluate
  rw [h1, h2, h3]

/-- Concrete sample record used by the witnesses. -/
def sampleRecord : KeyInfoRecord :=
  ⟨[1, 2, 3], "rsa-sha256", ["alice"], [KeyUsage.Signing], 0, 100⟩

/-- Concrete sample authority (all capabilities succeed). -/
def sampleAuthority : TrustAuthority :=
  ⟨fun _ => Except.ok true, fun _ => Except.ok false, Except.ok 5⟩

/-- C4 witness: determinism instantiated at a concrete record and two
(equal-capability) concrete authorities. -/
theorem evaluate_deterministic_witness :
    evaluate sampleRecord sampleAuthority = evaluate sampleRecord sampleAuthority :=
  evaluate_deterministic sampleRecord sampleAuthority sampleAuthority rfl rfl rfl

/-- C5: evaluate is total (it always returns a Status and a reason set;
its Lean type is not monadic and no exception escapes), and whenever any
capability call raises a fault the result Status is Indeterminate with
the EvaluationIncomplete diagnostic reason in the reason set. -/
theorem evaluate_fault_indeterminate (k : KeyInfoRecord) (ta : TrustAuthority)
    (h : (∃ e, ta.isIssuerTrusted k.claims = Except.error e) ∨
         (∃ e, ta.isRevoked k.keyBytes = Except.error e) ∨
         (∃ e, ta.currentTime = Except.error e)) :
    (evaluate k ta).1 = Status.Indeterminate ∧
      incompleteMarker ∈ (evaluate k ta).2.reasons := by
  unfold evaluate
  cases hi : ta.isIssuerTrusted k.claims with
  | error e =>
      exact ⟨rfl, ValidityReasonSet.mem_add_self _ _⟩
  | ok b =>
      cases hr : ta.isRevoked k.keyBytes with
      | error e =>
          exact ⟨rfl, ValidityReasonSet.mem_add_self _ _⟩
      | ok c =>
          cases ht : ta.currentTime with
          | error e =>
              exact ⟨rfl, ValidityReasonSet.mem_add_self _ _⟩
          | ok t =>
              exfalso
              rcases h with ⟨e, he⟩ | ⟨e, he⟩ | ⟨e, he⟩
              · rw [hi] at he; exact absurd he (by simp)
              · rw [hr] at he; exact absurd he (by simp)
              · rw [ht] at he; exact absurd he (by simp)

/-- Concrete authority whose issuer-trust capability times out. -/
def faultAuthority1 : TrustAuthority :=
  ⟨fun _ => Except.error CapabilityFault.timeout,
    fun _ => Except.ok false, Except.ok 5⟩

/-- C5 witness: a timing-out issuer-trust capability yields Indeterminate
with the EvaluationIncomplete reason, at concrete inputs. -/
theorem evaluate_fault_indeterminate_witness :
    (evaluate sampleRecord faultAuthority1).1 = Status.Indeterminate ∧
      incompleteMarker ∈ (evaluate sampleRecord faultAuthority1).2.reasons :=
  evaluate_fault_indeterminate sampleRecord faultAuthority1
    (Or.inl ⟨CapabilityFault.timeout, rfl⟩)

/-- C6: if a query step cannot be completed, evaluate short-circuits to
Indeterminate and the reason set is exactly the reasons collected by the
completed steps, in order, followed by the EvaluationIncomplete marker:
failure at step 1 gives only the marker; failure at step 2 gives the
IssuerTrust reason then the marker; failure at step 3 gives the
IssuerTrust and Revocation reasons then the marker. -/
theorem evaluate_short_circuit (k : KeyInfoRecord) (ta : TrustAuthority) :
    (∀ e, ta.isIssuerTrusted k.claims = Except.error e →
        evaluate k ta = (Status.Indeterminate, ⟨[incompleteMarker]⟩)) ∧
    (∀ b e, ta.isIssuerTrusted k.claims = Except.ok b →
        ta.isRevoked k.keyBytes = Except.error e →
        evaluate k ta = (Status.Indeterminate,
          ⟨[⟨ReasonTag.IssuerTrust, b⟩, incompleteMarker]⟩)) ∧
    (∀ b c e, ta.isIssuerTrusted k.claims = Except.ok b →
        ta.isRevoked k.keyBytes = Except.ok c →
        ta.currentTime = Except.error e →
        evaluate k ta = (Status.Indeterminate,
          ⟨[⟨ReasonTag.IssuerTrust, b⟩, ⟨ReasonTag.Revocation, !c⟩,
            incompleteMarker]⟩)) := by
  refine ⟨fun e he => ?_, fun b e hb he => ?_, fun b c e hb hc he => ?_⟩
  · unfold evaluate
    rw [he]
    simp [ValidityReasonSet.add, ValidityReasonSet.empty]
  · unfold evaluate
    rw [hb, he]
    simp [ValidityReasonSet.add, ValidityReasonSet.empty, incompleteMarker]
  · unfold evaluate
    rw [hb, hc, he]
    simp [ValidityReasonSet.add, ValidityReasonSet.empty, incompleteMarker]

/-- C6 witness: short-circuit at step 1 evaluated at a concrete record
and a concrete timing-out authority. -/
theorem evaluate_short_circuit_witness :
    evaluate sampleRecord faultAuthority1 =
      (Status.Indeterminate, ⟨[incompleteMarker]⟩) :=
  (evaluate_short_circuit sampleRecord faultAuthority1).1
    CapabilityFault.timeout rfl

end XKMS

namespace XKMS

/-- C7: constructing a KeyInfoRecord fails with MalformedKeyError exactly
when the key bytes are empty or the algorithm tag is unrecognized, and a
successfully constructed record is a value whose accessors return exactly
the data given at construction. -/
theorem mkKeyInfoRecord_spec :
    (∀ (recognized : String → Bool) (bytes : List Nat) (alg : String)
        (cl : List String) (us : List KeyUsage) (nb na : Nat),
        (∃ e, mkKeyInfoRecord recognized bytes alg cl us nb na =
            Except.error e) ↔ (bytes = [] ∨ recognized alg = false)) ∧
    (∀ (recognized : String → Bool) (bytes : List Nat) (alg : String)
        (cl : List String) (us : List KeyUsage) (nb na : Nat)
        (r : KeyInfoRecord),
        mkKeyInfoRecord recognized bytes alg cl us nb na = Except.ok r →
          r.keyBytes = bytes ∧ r.algTag = alg ∧ r.claims = cl ∧
            r.usage = us ∧ r.notBefore = nb ∧ r.notAfter = na) := by
  constructor
  · intro recognized bytes alg cl us nb na
    unfold mkKeyInfoRecord
    by_cases h : bytes = [] ∨ recognized alg = false
    · simp only [h, if_true]
      simp [h]
      exact ⟨MalformedKeyError.malformed, trivial⟩
    · simp [h]
  · intro recognized bytes alg cl us nb na r hr
    unfold mkKeyInfoRecord at hr
    by_cases h : bytes = [] ∨ recognized alg = false
    · simp [h] at hr
    · simp [h] at hr
      subst hr
      exact ⟨rfl, rfl, rfl, rfl, rfl, rfl⟩

/-- C7 witness: a concrete successful construction, with all accessors
returning the construction arguments. -/
theorem mkKeyInfoRecord_spec_witness :
    sampleRecord.keyBytes = [1, 2, 3] ∧ sampleRecord.algTag = "rsa-sha256" ∧
      sampleRecord.claims = ["alice"] ∧
      sampleRecord.usage = [KeyUsage.Signing] ∧
      sampleRecord.notBefore = 0 ∧ sampleRecord.notAfter = 100 :=
  mkKeyInfoRecord_spec.2 (fun _ => true) [1, 2, 3] "rsa-sha256" ["alice"]
    [KeyUsage.Signing] 0 100 sampleRecord (by rfl)

/-- Concrete authority reporting a trusted issuer and a revoked key, whose
time capability faults. -/
def revokedFaultAuthority : TrustAuthority :=
  ⟨fun _ => Except.ok true, fun _ => Except.ok true,
    Except.error CapabilityFault.timeout⟩

/-- C8 counterexample: a TrustAuthority that reports the issuer trusted
and the key revoked but whose currentTime capability faults makes
evaluate short-circuit to Indeterminate, not Invalid, so the claim as
stated (no assumption on the time capability) is false. -/
theorem evaluate_revoked_not_invalid_counterexample :
    revokedFaultAuthority.isIssuerTrusted sampleRecord.claims =
        Except.ok true ∧
      revokedFaultAuthority.isRevoked sampleRecord.keyBytes =
        Except.ok true ∧
      (evaluate sampleRecord revokedFaultAuthority).1 ≠ Status.Invalid :=
  ⟨rfl, rfl, by decide⟩

/-- Concrete authority reporting a trusted issuer and a revoked key, with
a working time capability. -/
def revokedAuthority : TrustAuthority :=
  ⟨fun _ => Except.ok true, fun _ => Except.ok true, Except.ok 5⟩

/-- C8 (amended): when step 2 completes, the Revocation reason polarity is
the negation of the isRevoked result; and for every record whose issuer is
reported trusted, whose key is reported revoked, and whose evaluation
completes (the time capability also succeeds), evaluate returns Invalid
with the denying Revocation reason in the reason set. -/
theorem evaluate_revocation_polarity_invalid (k : KeyInfoRecord)
    (ta : TrustAuthority) :
    (∀ b c t, ta.isIssuerTrusted k.claims = Except.ok b →
        ta.isRevoked k.keyBytes = Except.ok c →
        ta.currentTime = Except.ok t →
        (⟨ReasonTag.Revocation, !c⟩ : ValidityReason) ∈
          (evaluate k ta).2.reasons) ∧
    (∀ t, ta.isIssuerTrusted k.claims = Except.ok true →
        ta.isRevoked k.keyBytes = Except.ok true →
        ta.currentTime = Except.ok t →
        (evaluate k ta).1 = Status.Invalid ∧
          (⟨ReasonTag.Revocation, false⟩ : ValidityReason) ∈
            (evaluate k ta).2.reasons) := by
  constructor
  · intro b c t hb hc ht
    unfold evaluate
    rw [hb, hc, ht]
    simp [ValidityReasonSet.add, ValidityReasonSet.empty]
  · intro t hb hc ht
    unfold evaluate
    rw [hb, hc, ht]
    simp [ValidityReasonSet.add, ValidityReasonSet.empty, deriveStatus]

/-- C8 witness: the amended statement at a concrete record and a concrete
revoked-and-trusted authority with a working clock. -/
theorem evaluate_revocation_polarity_invalid_witness :
    (evaluate sampleRecord revokedAuthority).1 = Status.Invalid ∧
      (⟨ReasonTag.Revocation, false⟩ : ValidityReason) ∈
        (evaluate sampleRecord revokedAuthority).2.reasons :=
  (evaluate_revocation_polarity_invalid sampleRecord revokedAuthority).2
    5 rfl rfl rfl

/-- Modelled from the spec: XKMSKeyBindingAbstractType, the base class of
XKMSKeyBinding; its header is not under src/.  Its observable state is
the key assertion together with the evaluated Status and reasons. -/
structure XKMSKeyBindingAbstractType where
  keyInfo : KeyInfoRecord
  status : Status
  reasonSet : ValidityReasonSet
  deriving DecidableEq

/-- Embedding of src/c/src/xkms/XKMSKeyBinding.hpp: the class
XKMSKeyBinding derives publicly from XKMSKeyBindingAbstractType and
declares no data members and no operations beyond a protected default
constructor, a public virtual destructor, and private unimplemented copy
operations. -/
structure XKMSKeyBinding where
  toAbstract : XKMSKeyBindingAbstractType
  deriving DecidableEq

/-- C10: XKMSKeyBinding adds nothing to its base: the projection onto
XKMSKeyBindingAbstractType is injective and surjective, so every
observable behaviour of an XKMSKeyBinding value is exactly that of the
XKMSKeyBindingAbstractType it specializes. -/
theorem keyBinding_adds_nothing :
    (∀ x y : XKMSKeyBinding, x.toAbstract = y.toAbstract → x = y) ∧
      (∀ a : XKMSKeyBindingAbstractType,
        ∃ x : XKMSKeyBinding, x.toAbstract = a) := by
  constructor
  · intro x y h
    cases x
    cases y
    cases h
    rfl
  · intro a
    exact ⟨⟨a⟩, rfl⟩

/-- Concrete abstract-type value for the C10 witness. -/
def sampleAbstract : XKMSKeyBindingAbstractType :=
  ⟨sampleRecord, Status.Valid, ValidityReasonSet.empty⟩

/-- C10 witness: injectivity instantiated at a concrete key binding. -/
theorem keyBinding_adds_nothing_witness :
    (⟨sampleAbstract⟩ : XKMSKeyBinding) = ⟨sampleAbstract⟩ :=
  keyBinding_adds_nothing.1 ⟨sampleAbstract⟩ ⟨sampleAbstract⟩ rfl

end XKMS
